import Mathlib

/-!
Verification of the real-time quiz WebSocket server (apps/ws-server).

The definitions below are a shallow embedding of the server's handlers:
`checkRateLimit`, the `ws.on('message')` pre-dispatch pipeline, the per-user
connection registry of `wss.on('connection')` / `cleanupConnection`, and the
quiz engine handlers `handleSubmitAnswer`, `handleQuestionExpiry`,
`handleNextQuestion`, `handleQuizFinished`, `handleJoinRoom`,
`handleStartQuiz`, `cleanupRoomData`.  Redis state and the Prisma tables are
modelled as association lists; `Date.now()` is an explicit `now : Nat`
parameter; the fallibility of the relational store inside the winning-claim
transaction is an explicit `dbOk : Bool` parameter.
-/

namespace MCQBattle

/-! ### Configuration constants (the `CONFIG` object) -/

def QUESTION_TIME_LIMIT : Nat := 10000
def QUIZ_START_DELAY : Nat := 5000
def NEXT_QUESTION_DELAY : Nat := 3000
def QUESTIONS_PER_QUIZ : Nat := 10
def MAX_CONNECTIONS_PER_USER : Nat := 3
def RATE_LIMIT_WINDOW : Nat := 1000
def RATE_LIMIT_MAX : Nat := 10

/-! ### Association-list helpers (JS `Map` / Redis keyed state) -/

def lookupKV {α β : Type} [DecidableEq α] : List (α × β) → α → Option β
  | [], _ => none
  | (a, b) :: t, k => if a = k then some b else lookupKV t k

def setKV {α β : Type} [DecidableEq α] : List (α × β) → α → β → List (α × β)
  | [], k, v => [(k, v)]
  | (a, b) :: t, k, v => if a = k then (k, v) :: t else (a, b) :: setKV t k v

def removeKV {α β : Type} [DecidableEq α] : List (α × β) → α → List (α × β)
  | [], _ => []
  | (a, b) :: t, k => if a = k then removeKV t k else (a, b) :: removeKV t k

theorem lookupKV_setKV_self {α β : Type} [DecidableEq α] (m : List (α × β)) (k : α) (v : β) :
    lookupKV (setKV m k v) k = some v := by
  induction m with
  | nil => simp [setKV, lookupKV]
  | cons hd t ih =>
    obtain ⟨a, b⟩ := hd
    by_cases h : a = k
    · simp [setKV, lookupKV, h]
    · simp [setKV, lookupKV, h, ih]

theorem lookupKV_setKV_ne {α β : Type} [DecidableEq α] (m : List (α × β)) (k k' : α) (v : β)
    (h : k' ≠ k) : lookupKV (setKV m k v) k' = lookupKV m k' := by
  have hk : ¬ k = k' := fun hh => h hh.symm
  induction m with
  | nil => simp [setKV, lookupKV, hk]
  | cons hd t ih =>
    obtain ⟨a, b⟩ := hd
    by_cases ha : a = k
    · subst ha
      simp [setKV, lookupKV, hk]
    · simp only [setKV, if_neg ha, lookupKV]
      by_cases ha' : a = k'
      · simp [ha']
      · simp [ha', ih]

theorem lookupKV_removeKV_self {α β : Type} [DecidableEq α] (m : List (α × β)) (k : α) :
    lookupKV (removeKV m k) k = none := by
  induction m with
  | nil => simp [removeKV, lookupKV]
  | cons hd t ih =>
    obtain ⟨a, b⟩ := hd
    by_cases h : a = k
    · simp [removeKV, h, ih]
    · simp [removeKV, lookupKV, h, ih]

theorem lookupKV_mem {α β : Type} [DecidableEq α] (m : List (α × β)) (k : α) (v : β)
    (h : lookupKV m k = some v) : (k, v) ∈ m := by
  induction m with
  | nil => simp [lookupKV] at h
  | cons hd t ih =>
    obtain ⟨a, b⟩ := hd
    by_cases ha : a = k
    · subst ha
      simp [lookupKV] at h
      simp [h]
    · simp only [lookupKV, if_neg ha] at h
      exact List.mem_cons_of_mem _ (ih h)

theorem lookupKV_filter_none {α β : Type} [DecidableEq α] (m : List (α × β))
    (p : α × β → Bool) (k : α) (h : ∀ v, p (k, v) = false) :
    lookupKV (m.filter p) k = none := by
  induction m with
  | nil => simp [lookupKV]
  | cons hd t ih =>
    obtain ⟨a, b⟩ := hd
    by_cases hp : p (a, b)
    · have hak : a ≠ k := by
        intro hak
        subst hak
        rw [h b] at hp
        exact absurd hp (by simp)
      simp [List.filter, hp, lookupKV, hak, ih]
    · simp [List.filter, hp, ih]

/-! ### Rate limiting (`rateLimitMap`, `checkRateLimit`) -/

structure RateEntry where
  count : Nat
  resetTime : Nat
deriving DecidableEq

/-- Map from `userId` to its window entry; note the key is the *user id*,
not the connection id, mirroring `rateLimitMap = new Map<number, ...>`. -/
abbrev RateMap := List (Nat × RateEntry)

/-- Direct translation of `checkRateLimit(userId)`, with `Date.now()`
passed in as `now`.  Returns whether the frame is admitted, and the
updated map. -/
def checkRateLimit (m : RateMap) (userId : Nat) (now : Nat) : Bool × RateMap :=
  match lookupKV m userId with
  | none => (true, setKV m userId ⟨1, now + RATE_LIMIT_WINDOW⟩)
  | some e =>
    if e.resetTime < now then
      (true, setKV m userId ⟨1, now + RATE_LIMIT_WINDOW⟩)
    else if RATE_LIMIT_MAX ≤ e.count then
      (false, m)
    else
      (true, setKV m userId ⟨e.count + 1, e.resetTime⟩)

/-! ### Wire frames and handler outputs -/

structure QuizQuestion where
  id : Nat
  text : String
  options : List String
  correctIdx : Nat
deriving DecidableEq

/-- Entry of the `quizFinished` standings payload. -/
structure Standing where
  userId : Nat
  userName : String
  score : Nat
  newRating : Int
deriving DecidableEq

/-- Outbound frames (`types.ts` response schemas); timestamps as `Nat`. -/
inductive Frame where
  | error (code : Nat) (message : String)
  | joinedRoom (roomId : String)
  | participantJoined (userId : Nat) (userName : String)
  | participantLeft (userId : Nat)
  | quizStarting (roomId : String) (startDelay questionCount : Nat)
  | nextQuestion (questionIndex : Nat) (question : QuizQuestion) (startedAt expiresAt : Nat)
  | endQuestion (questionIndex correctIdx : Nat) (winnerUserId : Option Nat)
  | quizFinished (standings : List Standing)
deriving DecidableEq

/-- Observable effect of a handler: a frame sent to the message's sender
(`sendResponse`/`sendError`), a frame broadcast to a room
(`broadcastToRoom`), or a `console.error` log line. -/
inductive Out where
  | reply (f : Frame)
  | broadcast (roomId : String) (f : Frame)
  | log (message : String)
deriving DecidableEq

/-! ### The `ws.on('message')` pre-dispatch pipeline -/

structure InboundOutcome where
  frames : List Frame
  processed : Bool
  closes : Bool
deriving DecidableEq

/-- The guard prefix of the `ws.on('message')` handler: the rate-limit
check runs first, then the decoded-size check; `processed = true` means the
frame goes on to `JSON.parse` / schema validation / `handleMessage`.
No branch closes the connection (`closes = false` throughout). -/
def receiveFrame (m : RateMap) (userId : Nat) (msgLen : Nat) (now : Nat) :
    RateMap × InboundOutcome :=
  let r := checkRateLimit m userId now
  if !r.1 then (r.2, ⟨[.error 429 "Rate limit exceeded"], false, false⟩)
  else if 1024 < msgLen then (r.2, ⟨[.error 413 "Message too large"], false, false⟩)
  else (r.2, ⟨[], true, false⟩)

/-- Test driver for the rate limiter: feed a sequence of inbound frames,
each annotated with the connection it arrives on and its arrival time, all
belonging to one authenticated user; returns the per-frame admission
verdicts.  The connection id is recorded in the trace but — exactly as in
the source, whose `rateLimitMap` is keyed by `userId` alone — it plays no
role in the decision. -/
def runUserFrames (userId : Nat) (frames : List (String × Nat)) : List Bool :=
  (frames.foldl
    (fun acc f =>
      let r := checkRateLimit acc.1 userId f.2
      (r.2, acc.2 ++ [r.1]))
    (([] : RateMap), ([] : List Bool))).2

/-- Number of frames admitted when the times `ts` are fed one by one to
`checkRateLimit` for user `u` starting from map `m`. -/
def countAdmitted (u : Nat) (m : RateMap) : List Nat → Nat
  | [] => 0
  | t :: ts =>
    let r := checkRateLimit m u t
    (if r.1 then 1 else 0) + countAdmitted u r.2 ts

theorem countAdmitted_window (u : Nat) :
    ∀ (ts : List Nat) (m : RateMap) (c reset : Nat),
      lookupKV m u = some ⟨c, reset⟩ →
      (∀ t ∈ ts, t ≤ reset) →
      countAdmitted u m ts ≤ RATE_LIMIT_MAX - c := by
  intro ts
  induction ts with
  | nil => intro m c reset _ _; simp [countAdmitted]
  | cons t ts ih =>
    intro m c reset hm hts
    have ht : t ≤ reset := hts t (by simp)
    have hts' : ∀ t' ∈ ts, t' ≤ reset := fun t' h' => hts t' (by simp [h'])
    simp only [countAdmitted, checkRateLimit, hm]
    have hnr : ¬ reset < t := Nat.not_lt.mpr ht
    rw [if_neg hnr]
    by_cases hc : RATE_LIMIT_MAX ≤ c
    · rw [if_pos hc]
      simpa using ih m c reset hm hts'
    · rw [if_neg hc]
      have h2 := ih (setKV m u ⟨c + 1, reset⟩) (c + 1) reset
        (lookupKV_setKV_self _ _ _) hts'
      have hlt : c < RATE_LIMIT_MAX := Nat.lt_of_not_le hc
      simp only [if_true]
      omega

/-! ### Per-user connection cap (`wss.on('connection')` / `cleanupConnection`) -/

/-- The `userConnections` map: `userId → Set<connectionId>`. -/
abbrev UserConnections := List (Nat × List String)

structure AttachResult where
  registry : UserConnections
  frames : List Frame
  closeCode : Option Nat
deriving DecidableEq

/-- The connection-cap portion of `wss.on('connection')`: reject with an
error frame and `ws.close(1008, ...)` when the user already holds
`MAX_CONNECTIONS_PER_USER` live connections, otherwise register the fresh
connection id. -/
def attachConnection (uc : UserConnections) (userId : Nat) (connectionId : String) :
    AttachResult :=
  let userConns := (lookupKV uc userId).getD []
  if MAX_CONNECTIONS_PER_USER ≤ userConns.length then
    ⟨uc, [.error 429 "Too many connections for this user"], some 1008⟩
  else
    ⟨setKV uc userId (connectionId :: userConns), [], none⟩

/-- The `userConnections` part of `cleanupConnection`: drop the connection
id from the user's set, deleting the map entry when the set empties. -/
def cleanupUserConnections (uc : UserConnections) (userId : Nat) (connectionId : String) :
    UserConnections :=
  match lookupKV uc userId with
  | none => uc
  | some conns =>
    let conns' := conns.filter (fun c => c != connectionId)
    if conns'.length = 0 then removeKV uc userId else setKV uc userId conns'

/-- Registry invariant: every user holds at most
`MAX_CONNECTIONS_PER_USER` connections. -/
def ConnCapOK (uc : UserConnections) : Prop :=
  ∀ p ∈ uc, (p.2).length ≤ MAX_CONNECTIONS_PER_USER

theorem mem_setKV {α β : Type} [DecidableEq α] (m : List (α × β)) (k : α) (v : β)
    (p : α × β) (h : p ∈ setKV m k v) : p = (k, v) ∨ p ∈ m := by
  induction m with
  | nil =>
    simp [setKV] at h
    exact Or.inl h
  | cons hd t ih =>
    obtain ⟨a, b⟩ := hd
    by_cases ha : a = k
    · simp only [setKV, if_pos ha] at h
      rcases List.mem_cons.mp h with h1 | h2
      · exact Or.inl h1
      · exact Or.inr (List.mem_cons_of_mem _ h2)
    · simp only [setKV, if_neg ha] at h
      rcases List.mem_cons.mp h with h1 | h2
      · exact Or.inr (by simp [h1])
      · rcases ih h2 with h3 | h4
        · exact Or.inl h3
        · exact Or.inr (List.mem_cons_of_mem _ h4)

theorem mem_removeKV {α β : Type} [DecidableEq α] (m : List (α × β)) (k : α)
    (p : α × β) (h : p ∈ removeKV m k) : p ∈ m := by
  induction m with
  | nil =>
    simp [removeKV] at h
  | cons hd t ih =>
    obtain ⟨a, b⟩ := hd
    by_cases ha : a = k
    · simp only [removeKV, if_pos ha] at h
      exact List.mem_cons_of_mem _ (ih h)
    · simp only [removeKV, if_neg ha] at h
      rcases List.mem_cons.mp h with h1 | h2
      · simp [h1]
      · exact List.mem_cons_of_mem _ (ih h2)

/-- Claim C6: attaching fails with `ConnectionLimit` (close code 1008,
`PolicyViolation`) when the user already holds three live connections, and
both `attachConnection` and `cleanupUserConnections` preserve the bound
that every `userId` appears in the registry at most three times. -/
theorem c6_connection_cap (uc : UserConnections) (u : Nat) (cid : String)
    (h : ConnCapOK uc) :
    (MAX_CONNECTIONS_PER_USER ≤ ((lookupKV uc u).getD []).length →
        attachConnection uc u cid =
          ⟨uc, [.error 429 "Too many connections for this user"], some 1008⟩)
    ∧ ConnCapOK (attachConnection uc u cid).registry
    ∧ ConnCapOK (cleanupUserConnections uc u cid) := by
  refine ⟨fun hfull => by simp [attachConnection, hfull], ?_, ?_⟩
  · by_cases hfull : MAX_CONNECTIONS_PER_USER ≤ ((lookupKV uc u).getD []).length
    · simpa [attachConnection, hfull] using h
    · simp only [attachConnection, if_neg hfull]
      intro p hp
      rcases mem_setKV _ _ _ _ hp with h1 | h2
      · subst h1
        simp only [List.length_cons]
        exact Nat.lt_of_not_le hfull
      · exact h p h2
  · unfold cleanupUserConnections
    cases hl : lookupKV uc u with
    | none => exact h
    | some conns =>
      have hconns : conns.length ≤ MAX_CONNECTIONS_PER_USER :=
        h (u, conns) (lookupKV_mem _ _ _ hl)
      by_cases hz : (conns.filter (fun c => c != cid)).length = 0
      · simp only [hz, if_pos rfl]
        exact fun p hp => h p (mem_removeKV _ _ _ hp)
      · simp only [if_neg hz]
        intro p hp
        rcases mem_setKV _ _ _ _ hp with h1 | h2
        · subst h1
          exact le_trans (List.length_filter_le _ _) hconns
        · exact h p h2

theorem c6_connection_cap_witness :
    attachConnection [(1, ["a", "b", "c"])] 1 "d" =
      ⟨[(1, ["a", "b", "c"])], [.error 429 "Too many connections for this user"], some 1008⟩
    ∧ ConnCapOK (cleanupUserConnections [(1, ["a", "b", "c"])] 1 "c") := by
  have h : ConnCapOK [(1, ["a", "b", "c"])] := by
    intro p hp
    rw [List.mem_singleton] at hp
    subst hp
    decide
  exact ⟨(c6_connection_cap [(1, ["a", "b", "c"])] 1 "d" h).1 (by decide),
    (c6_connection_cap [(1, ["a", "b", "c"])] 1 "c" h).2.2⟩

/-- Counterexample to claim C5: the rate limiter is keyed by `userId`, not
by connection, and its window is fixed rather than sliding.  First trace:
after ten frames on connection `connA`, user 7's very first frame on
connection `connB` (arriving inside the same second) is rejected — under a
per-connection counter it would have been admitted.  Second trace: twenty
frames of the same user are all admitted although nineteen of them fall
inside the six-millisecond span 995..1001, far more than ten per sliding
one-second window. -/
theorem c5_counterexample :
    runUserFrames 7 (List.replicate 10 ("connA", 0) ++ [("connB", 0)])
      = List.replicate 10 true ++ [false]
    ∧ runUserFrames 7
        (("connA", 0) :: (List.replicate 9 ("connA", 995) ++ List.replicate 10 ("connA", 1001)))
      = List.replicate 20 true := by
  constructor
  · rfl
  · rfl

/-- Claim C5 (amended): the server keeps one fixed-window counter per
authenticated user, shared across all of that user's connections: at most
`RATE_LIMIT_MAX` frames are admitted per window of `RATE_LIMIT_WINDOW`
milliseconds anchored at the first frame after each expiry, and a frame
arriving while the user's counter is full is dropped unprocessed after an
error frame with code 429, the map left unchanged and the connection kept
open. -/
theorem c5_rate_limit_per_user :
    (∀ (m : RateMap) (u now msgLen : Nat) (e : RateEntry),
        lookupKV m u = some e → now ≤ e.resetTime → RATE_LIMIT_MAX ≤ e.count →
        receiveFrame m u msgLen now =
          (m, ⟨[.error 429 "Rate limit exceeded"], false, false⟩))
    ∧ (∀ (u t0 : Nat) (ts : List Nat) (m : RateMap),
        lookupKV m u = none →
        (∀ t ∈ ts, t ≤ t0 + RATE_LIMIT_WINDOW) →
        countAdmitted u m (t0 :: ts) ≤ RATE_LIMIT_MAX) := by
  constructor
  · intro m u now msgLen e hm hnow hc
    have hnr : ¬ e.resetTime < now := Nat.not_lt.mpr hnow
    simp [receiveFrame, checkRateLimit, hm, hnr, hc]
  · intro u t0 ts m hm hts
    simp only [countAdmitted, checkRateLimit, hm]
    have h2 := countAdmitted_window u ts (setKV m u ⟨1, t0 + RATE_LIMIT_WINDOW⟩) 1
      (t0 + RATE_LIMIT_WINDOW) (lookupKV_setKV_self _ _ _) hts
    simp only [if_true]
    have : (0 : Nat) < RATE_LIMIT_MAX := by decide
    omega

theorem c5_rate_limit_per_user_witness :
    receiveFrame [(7, ⟨10, 1000⟩)] 7 5 500 =
      ([(7, ⟨10, 1000⟩)], ⟨[.error 429 "Rate limit exceeded"], false, false⟩)
    ∧ countAdmitted 7 [] [0, 100, 900] ≤ RATE_LIMIT_MAX :=
  ⟨c5_rate_limit_per_user.1 [(7, ⟨10, 1000⟩)] 7 500 5 ⟨10, 1000⟩ (by decide) (by decide)
      (by decide),
   c5_rate_limit_per_user.2 7 0 [100, 900] [] (by decide) (by decide)⟩

/-- Counterexample to claim C7: an inbound frame of decoded size 2000
(greater than 1024) arriving while its sender's rate-limit counter is full
is answered with error 429, not 413 — the rate-limit check runs before the
size check in `ws.on('message')`, so not every oversized frame produces
`PayloadTooLarge`. -/
theorem c7_counterexample :
    receiveFrame [(5, ⟨10, 1000⟩)] 5 2000 600
      = ([(5, ⟨10, 1000⟩)], ⟨[.error 429 "Rate limit exceeded"], false, false⟩)
    ∧ Frame.error 413 "Message too large" ∉
        (receiveFrame [(5, ⟨10, 1000⟩)] 5 2000 600).2.frames := by
  constructor
  · rfl
  · decide

/-- Claim C7 (amended): an inbound frame that passes the rate limiter and
whose decoded size exceeds 1024 is answered with an error frame with code
413, is not processed further, and does not close the connection. -/
theorem c7_payload_too_large (m : RateMap) (u msgLen now : Nat)
    (hok : (checkRateLimit m u now).1 = true) (hlen : 1024 < msgLen) :
    receiveFrame m u msgLen now =
      ((checkRateLimit m u now).2, ⟨[.error 413 "Message too large"], false, false⟩) := by
  simp [receiveFrame, hok, hlen]

theorem c7_payload_too_large_witness :
    receiveFrame [] 3 2000 0 =
      ((checkRateLimit [] 3 0).2, ⟨[.error 413 "Message too large"], false, false⟩) :=
  c7_payload_too_large [] 3 2000 0 (by decide) (by decide)

/-! ### Relational store (Prisma tables, `migration.sql`) -/

structure RoomRow where
  id : String
  name : String
  hostId : Nat
  isActive : Bool
  maxPlayers : Nat
deriving DecidableEq

structure ParticipantRow where
  roomId : String
  userId : Nat
  score : Nat
deriving DecidableEq

structure ClaimRow where
  roomId : String
  questionIndex : Nat
  userId : Nat
deriving DecidableEq

/-- The relational store.  `users` maps id to the nullable `name` column;
`ratings` is the `PlayerRating` table; list order is table insertion
order. -/
structure Db where
  rooms : List RoomRow
  users : List (Nat × Option String)
  questions : List QuizQuestion
  participants : List ParticipantRow
  claims : List ClaimRow
  ratings : List (Nat × Int)
deriving DecidableEq

/-- `AnswerClaim` rows for one `(roomId, questionIndex)` — the pair carries
a unique index in `migration.sql`. -/
def claimsFor (db : Db) (roomId : String) (qi : Nat) : List ClaimRow :=
  db.claims.filter (fun c => c.roomId == roomId && c.questionIndex == qi)

def participantExists (ps : List ParticipantRow) (roomId : String) (u : Nat) : Bool :=
  ps.any (fun p => p.roomId == roomId && p.userId == u)

/-- `tx.roomParticipant.update({where: roomId_userId, data: {score: {increment: 1}}})`. -/
def incrementScore (ps : List ParticipantRow) (roomId : String) (u : Nat) :
    List ParticipantRow :=
  ps.map (fun p => if p.roomId == roomId && p.userId == u then
    { p with score := p.score + 1 } else p)

/-- Effect of the winning-claim transaction when it commits: insert the
`AnswerClaim` row and increment the claimer's score. -/
def recordClaim (db : Db) (roomId : String) (qi u : Nat) : Db :=
  { db with
    claims := ⟨roomId, qi, u⟩ :: db.claims,
    participants := incrementScore db.participants roomId u }

/-- `user?.name || 'Anonymous'` (a missing row, a NULL name and an empty
name all fall back to `'Anonymous'`). -/
def userNameOf (users : List (Nat × Option String)) (u : Nat) : String :=
  match lookupKV users u with
  | some (some n) => if n = "" then "Anonymous" else n
  | _ => "Anonymous"

/-! ### Redis keys and in-memory per-room state -/

/-- The Redis keys the quiz engine uses, grouped by shape:
`room:{r}:currentQuestion` (a stringified integer, `-1` while starting),
`room:{r}:participants` (a set of user ids),
`room:{r}:startTime`,
`room:{r}:q:{i}:answered:{uid}` (presence-only `NX` keys, one per user),
`room:{r}:q:{i}:firstUser` (the winner's user id, set `NX`),
`room:{r}:q:{i}:expired` (presence-only). -/
structure RedisState where
  currentQuestion : List (String × Int)
  roomParticipants : List (String × List Nat)
  startTime : List (String × Nat)
  answered : List (String × Nat × Nat)
  firstUser : List ((String × Nat) × Nat)
  expired : List (String × Nat)
deriving DecidableEq

/-- What the `setTimeout` closure held by a `RoomTimer` does when it
fires. -/
inductive TimerAction where
  | startFirstQuestion (roomId : String)
  | questionExpiry (roomId : String) (questionIndex : Nat)
  | advanceAfter (roomId : String) (questionIndex : Nat)
deriving DecidableEq

/-- A `RoomTimer` map entry, enriched with its scheduled firing time and
its callback. -/
structure TimerEntry where
  fireAt : Nat
  questionIndex : Int
  roomId : String
  action : TimerAction
deriving DecidableEq

/-- The whole mutable state of the ws-server process plus its two stores. -/
structure ServerState where
  db : Db
  redis : RedisState
  questionsCache : List (String × List QuizQuestion)
  timers : List (String × TimerEntry)
  roomSockets : List (String × List String)
  userConnections : UserConnections
  rateLimitMap : RateMap
deriving DecidableEq

/-- A client connection as decorated by the server
(`WebSocketWithUser`). -/
structure Conn where
  userId : Nat
  connectionId : String
  currentRoom : Option String
deriving DecidableEq

def questionTimerKey (roomId : String) (qi : Nat) : String :=
  roomId ++ ":" ++ toString qi

def nextTimerKey (roomId : String) (qi : Nat) : String :=
  roomId ++ ":next-" ++ toString qi

def startTimerKey (roomId : String) : String :=
  roomId ++ ":start"

/-! ### `handleSubmitAnswer` -/

/-- `handleSubmitAnswer`, in source order: payload validation; room
membership checks against `ws.currentRoom` and the Redis participants set;
currentQuestion / expired / already-answered checks; the `NX` insertion
into the per-user answered key (which happens *before* the questions-cache
lookup); the correctness check; the `NX` claim of `firstUser`; the
database transaction (`dbOk` models whether the store call succeeds — on
failure the error is logged and execution continues); clearing the expiry
timer; the `endQuestion` broadcast; arming the next-question timer. -/
def handleSubmitAnswer (st : ServerState) (conn : Conn) (roomId : String)
    (questionIndex choiceIdx : Nat) (dbOk : Bool) (now : Nat) :
    ServerState × List Out :=
  if roomId = "" then (st, [.reply (.error 400 "Invalid room ID")])
  else if QUESTIONS_PER_QUIZ ≤ questionIndex then
    (st, [.reply (.error 400 "Invalid question index")])
  else if 3 < choiceIdx then (st, [.reply (.error 400 "Invalid choice index")])
  else if conn.currentRoom ≠ some roomId then (st, [.reply (.error 403 "Not in this room")])
  else if conn.userId ∉ (lookupKV st.redis.roomParticipants roomId).getD [] then
    (st, [.reply (.error 403 "Not a participant in this room")])
  else if lookupKV st.redis.currentQuestion roomId ≠ some (questionIndex : Int) then
    (st, [.reply (.error 409 "Question no longer active")])
  else if (roomId, questionIndex) ∈ st.redis.expired then
    (st, [.reply (.error 410 "Question has expired")])
  else if (roomId, questionIndex, conn.userId) ∈ st.redis.answered then
    (st, [])
  else
    let st1 : ServerState := { st with redis := { st.redis with
      answered := (roomId, questionIndex, conn.userId) :: st.redis.answered } }
    match (lookupKV st1.questionsCache roomId).bind (fun qs => qs[questionIndex]?) with
    | none => (st1, [.reply (.error 500 "Question not found")])
    | some q =>
      if q.correctIdx ≠ choiceIdx then (st1, [])
      else if (lookupKV st1.redis.firstUser (roomId, questionIndex)).isSome then (st1, [])
      else
        let st2 : ServerState := { st1 with redis := { st1.redis with
          firstUser := setKV st1.redis.firstUser (roomId, questionIndex) conn.userId } }
        let txOk := dbOk && participantExists st2.db.participants roomId conn.userId
          && (claimsFor st2.db roomId questionIndex).isEmpty
        let st3 : ServerState := { st2 with
          db := if txOk then recordClaim st2.db roomId questionIndex conn.userId else st2.db }
        let timers' :=
          setKV (removeKV st3.timers (questionTimerKey roomId questionIndex))
            (nextTimerKey roomId questionIndex)
            ⟨now + NEXT_QUESTION_DELAY, (questionIndex : Int) + 1, roomId,
              .advanceAfter roomId questionIndex⟩
        let st4 : ServerState := { st3 with timers := timers' }
        (st4, (if txOk then [] else [.log "Database error recording answer"])
          ++ [.broadcast roomId (.endQuestion questionIndex q.correctIdx (some conn.userId))])

/-! ### `handleQuestionExpiry`, `handleNextQuestion` -/

/-- `handleQuestionExpiry`: return if the question is missing from the
cache or a winner already claimed; otherwise set the `expired` flag,
broadcast `endQuestion` with `winnerUserId = null`, and arm the
next-question timer.  (The fired timer's own map entry is left in `timers`,
as in the source.) -/
def handleQuestionExpiry (st : ServerState) (roomId : String) (questionIndex : Nat)
    (now : Nat) : ServerState × List Out :=
  match (lookupKV st.questionsCache roomId).bind (fun qs => qs[questionIndex]?) with
  | none => (st, [])
  | some q =>
    if (lookupKV st.redis.firstUser (roomId, questionIndex)).isSome then (st, [])
    else
      let timers' :=
        setKV st.timers (nextTimerKey roomId questionIndex)
          ⟨now + NEXT_QUESTION_DELAY, (questionIndex : Int) + 1, roomId,
            .advanceAfter roomId questionIndex⟩
      let st1 : ServerState := { st with
        redis := { st.redis with expired := (roomId, questionIndex) :: st.redis.expired },
        timers := timers' }
      (st1, [.broadcast roomId (.endQuestion questionIndex q.correctIdx none)])

/-- `handleNextQuestion`: set `currentQuestion` in Redis, take server
timestamps `startedAt := now` and `expiresAt := startedAt +
QUESTION_TIME_LIMIT`, broadcast `nextQuestion`, and arm the expiry timer
for exactly `QUESTION_TIME_LIMIT`. -/
def handleNextQuestion (st : ServerState) (roomId : String) (questionIndex : Nat)
    (now : Nat) : ServerState × List Out :=
  match (lookupKV st.questionsCache roomId).bind (fun qs => qs[questionIndex]?) with
  | none => (st, [.log "Question not found for room"])
  | some q =>
    let startedAt := now
    let expiresAt := startedAt + QUESTION_TIME_LIMIT
    let timers' :=
      setKV st.timers (questionTimerKey roomId questionIndex)
        ⟨now + QUESTION_TIME_LIMIT, (questionIndex : Int), roomId,
          .questionExpiry roomId questionIndex⟩
    let st1 : ServerState := { st with
      redis := { st.redis with
        currentQuestion := setKV st.redis.currentQuestion roomId (questionIndex : Int) },
      timers := timers' }
    (st1, [.broadcast roomId (.nextQuestion questionIndex q startedAt expiresAt)])

/-! ### `handleQuizFinished` and final standings -/

/-- Stable insertion step for `orderBy: { score: 'desc' }`: an element is
placed after every earlier element whose score is strictly greater, and
after earlier equal scores (table order on ties — Prisma orders by the
score column only). -/
def insertDesc (a : ParticipantRow) : List ParticipantRow → List ParticipantRow
  | [] => [a]
  | x :: t => if a.score < x.score then x :: insertDesc a t else a :: x :: t

/-- Model of `findMany({orderBy: {score: 'desc'}})`: a stable sort of the
table rows by descending score. -/
def sortByScoreDesc : List ParticipantRow → List ParticipantRow
  | [] => []
  | a :: t => insertDesc a (sortByScoreDesc t)

/-- `(currentRating?.rating || 1200)`: a missing row *or a stored rating
of 0* (falsy in JavaScript) falls back to 1200; any other stored value —
including values below 1200 — is used as is. -/
def ratingBase (prev : Option Int) : Int :=
  match prev with
  | some rt => if rt = 0 then 1200 else rt
  | none => 1200

/-- The body of `participants.map` in `handleQuizFinished`: for each
participant in order, read the current rating, compute
`newRating = (currentRating?.rating || 1200) + score * 10`, upsert the
`PlayerRating` row, and emit the standings entry.  Returns the updated
ratings table and the standings list. -/
def computeStandings (ratings : List (Nat × Int)) (users : List (Nat × Option String)) :
    List ParticipantRow → List (Nat × Int) × List Standing
  | [] => (ratings, [])
  | p :: t =>
    let nr := ratingBase (lookupKV ratings p.userId) + (p.score : Int) * 10
    let r := computeStandings (setKV ratings p.userId nr) users t
    (r.1, ⟨p.userId, userNameOf users p.userId, p.score, nr⟩ :: r.2)

/-! ### `cleanupRoomData` -/

/-- The `(roomId, i)` key pairs behind
`room:{r}:q:{i}:firstUser` / `room:{r}:q:{i}:expired` for `i < 10`. -/
def roomQuestionKeys (roomId : String) : List (String × Nat) :=
  (List.range QUESTIONS_PER_QUIZ).map (fun i => (roomId, i))

/-- `key.startsWith(prefixStr)`, modelled on the character list so that
concrete instances compute. -/
def strStartsWith (s pre : String) : Bool :=
  pre.data.isPrefixOf s.data

/-- `cleanupRoomData`: delete the questions-cache entry, clear every timer
whose key starts with `roomId ++ ":"`, and delete the Redis keys
`currentQuestion`, `participants`, `startTime` and, for each question
index `0..9`, `firstUser` and `expired`.  The per-user
`room:{r}:q:{i}:answered:{uid}` keys are not in the deletion list. -/
def cleanupRoomData (st : ServerState) (roomId : String) : ServerState :=
  { st with
    questionsCache := removeKV st.questionsCache roomId,
    timers := st.timers.filter (fun kv => !(strStartsWith kv.1 (roomId ++ ":"))),
    redis := { st.redis with
      currentQuestion := removeKV st.redis.currentQuestion roomId,
      roomParticipants := removeKV st.redis.roomParticipants roomId,
      startTime := removeKV st.redis.startTime roomId,
      firstUser := st.redis.firstUser.filter
        (fun kv => decide (kv.1 ∉ roomQuestionKeys roomId)),
      expired := st.redis.expired.filter
        (fun e => decide (e ∉ roomQuestionKeys roomId)) } }

/-- `handleQuizFinished`: read the room's participants ordered by score
descending, compute and persist the new ratings, broadcast the
`quizFinished` standings, and clean up the room's transient state. -/
def handleQuizFinished (st : ServerState) (roomId : String) : ServerState × List Out :=
  let parts := sortByScoreDesc (st.db.participants.filter (fun p => p.roomId == roomId))
  let r := computeStandings st.db.ratings st.db.users parts
  let st1 : ServerState := { st with db := { st.db with ratings := r.1 } }
  let st2 := cleanupRoomData st1 roomId
  (st2, [.broadcast roomId (.quizFinished r.2)])

/-! ### `handleStartQuiz` -/

/-- Insertion sort of the question bank by ascending id (model of
`orderBy: { id: 'asc' }`). -/
def insertById (a : QuizQuestion) : List QuizQuestion → List QuizQuestion
  | [] => [a]
  | x :: t => if x.id < a.id then x :: insertById a t else a :: x :: t

def sortById : List QuizQuestion → List QuizQuestion
  | [] => []
  | a :: t => insertById a (sortById t)

/-- `handleStartQuiz`.  The random `skip` offset and the random order
direction are passed in as parameters `skip` / `asc`. -/
def handleStartQuiz (st : ServerState) (conn : Conn) (roomId : String)
    (skip : Nat) (asc : Bool) (now : Nat) : ServerState × List Out :=
  if roomId = "" then (st, [.reply (.error 400 "Invalid room ID")])
  else
    match st.db.rooms.find? (fun rm => rm.id == roomId) with
    | none => (st, [.reply (.error 403 "Only room host can start quiz")])
    | some rm =>
      if rm.hostId ≠ conn.userId then
        (st, [.reply (.error 403 "Only room host can start quiz")])
      else if (lookupKV st.redis.currentQuestion roomId).isSome then
        (st, [.reply (.error 409 "Quiz already in progress")])
      else if st.db.questions.length < QUESTIONS_PER_QUIZ then
        (st, [.reply (.error 500 "Not enough questions available")])
      else
        let ordered := if asc then sortById st.db.questions
                       else (sortById st.db.questions).reverse
        let questions := (ordered.drop skip).take QUESTIONS_PER_QUIZ
        let timers' :=
          setKV st.timers (startTimerKey roomId)
            ⟨now + QUIZ_START_DELAY, -1, roomId, .startFirstQuestion roomId⟩
        let st1 : ServerState := { st with
          questionsCache := setKV st.questionsCache roomId questions,
          redis := { st.redis with
            currentQuestion := setKV st.redis.currentQuestion roomId (-1),
            startTime := setKV st.redis.startTime roomId now },
          timers := timers' }
        (st1, [.broadcast roomId (.quizStarting roomId QUIZ_START_DELAY QUESTIONS_PER_QUIZ)])

/-! ### `handleJoinRoom` -/

/-- The commit part of `handleJoinRoom`, after all checks passed: upsert
the participant row (`update: {}` — an existing row is left unchanged),
`SADD` the Redis participants set, register the socket in the room's
fan-out set, set `ws.currentRoom`, then broadcast `participantJoined` and
reply `joinedRoom`. -/
def joinCommit (st : ServerState) (conn : Conn) (roomId : String) :
    ServerState × Conn × List Out :=
  let parts' := if participantExists st.db.participants roomId conn.userId
                then st.db.participants
                else st.db.participants ++ [⟨roomId, conn.userId, 0⟩]
  let cur := (lookupKV st.redis.roomParticipants roomId).getD []
  let cur' := if conn.userId ∈ cur then cur else cur ++ [conn.userId]
  let socks := (lookupKV st.roomSockets roomId).getD []
  let socks' := if conn.connectionId ∈ socks then socks else socks ++ [conn.connectionId]
  let st1 : ServerState := { st with
    db := { st.db with participants := parts' },
    redis := { st.redis with
      roomParticipants := setKV st.redis.roomParticipants roomId cur' },
    roomSockets := setKV st.roomSockets roomId socks' }
  (st1, { conn with currentRoom := some roomId },
    [.broadcast roomId (.participantJoined conn.userId (userNameOf st.db.users conn.userId)),
     .reply (.joinedRoom roomId)])

/-- `handleJoinRoom`, in source order: payload validation; the room must
exist and be active; capacity check against the *current* participant
count (run even when the joiner is already seated); the
single-room-per-user check (`findFirst` on `userId`); then the commit. -/
def handleJoinRoom (st : ServerState) (conn : Conn) (roomId : String) :
    ServerState × Conn × List Out :=
  if roomId = "" ∨ 50 < roomId.length then
    (st, conn, [.reply (.error 400 "Invalid room ID")])
  else
    match st.db.rooms.find? (fun rm => rm.id == roomId && rm.isActive) with
    | none => (st, conn, [.reply (.error 404 "Room not found or inactive")])
    | some rm =>
      if rm.maxPlayers ≤ (st.db.participants.filter (fun p => p.roomId == roomId)).length then
        (st, conn, [.reply (.error 400 "Room is full")])
      else
        match st.db.participants.find? (fun p => p.userId == conn.userId) with
        | some ep =>
          if ep.roomId ≠ roomId then
            (st, conn, [.reply (.error 400 "Already in another room")])
          else joinCommit st conn roomId
        | none => joinCommit st conn roomId

/-! ### Discrete-event execution (messages and timer firings) -/

/-- An external event: an inbound `submitAnswer` frame arriving at server
time `now`, or the Node event loop firing the timer stored under `key`. -/
inductive QEvent where
  | message (now : Nat) (conn : Conn) (roomId : String)
      (questionIndex choiceIdx : Nat) (dbOk : Bool)
  | timerFire (now : Nat) (key : String)
deriving DecidableEq

/-- Fire the timer registered under `key`: a cleared timer
(`clearTimeout` removed it from the map) does nothing; otherwise run the
stored callback. -/
def fireTimer (st : ServerState) (key : String) (now : Nat) : ServerState × List Out :=
  match lookupKV st.timers key with
  | none => (st, [])
  | some e =>
    match e.action with
    | .startFirstQuestion r => handleNextQuestion st r 0 now
    | .questionExpiry r qi => handleQuestionExpiry st r qi now
    | .advanceAfter r qi =>
      if qi < QUESTIONS_PER_QUIZ - 1 then handleNextQuestion st r (qi + 1) now
      else handleQuizFinished st r

def stepEvent (st : ServerState) : QEvent → ServerState × List Out
  | .message now conn roomId qi ch dbOk => handleSubmitAnswer st conn roomId qi ch dbOk now
  | .timerFire now key => fireTimer st key now

def runEvents (st : ServerState) : List QEvent → ServerState × List Out
  | [] => (st, [])
  | e :: t =>
    let r := stepEvent st e
    let r' := runEvents r.1 t
    (r'.1, r.2 ++ r'.2)

/-! ### Step lemmas for `handleSubmitAnswer` -/

/-- A duplicate submission (`uid ∈ answered`) is silently ignored: state
unchanged, no output at all. -/
theorem submit_dup (st : ServerState) (u : Nat) (cid roomId : String) (qi ch : Nat)
    (dbOk : Bool) (now : Nat)
    (hr : roomId ≠ "") (hqi : qi < QUESTIONS_PER_QUIZ) (hch : ch ≤ 3)
    (hpart : u ∈ (lookupKV st.redis.roomParticipants roomId).getD [])
    (hcq : lookupKV st.redis.currentQuestion roomId = some (qi : Int))
    (hexp : (roomId, qi) ∉ st.redis.expired)
    (hans : (roomId, qi, u) ∈ st.redis.answered) :
    handleSubmitAnswer st ⟨u, cid, some roomId⟩ roomId qi ch dbOk now = (st, []) := by
  have h1 : ¬ QUESTIONS_PER_QUIZ ≤ qi := Nat.not_le.mpr hqi
  have h2 : ¬ 3 < ch := Nat.not_lt.mpr hch
  simp [handleSubmitAnswer, hr, h1, h2, hpart, hcq, hexp, hans]

/-- A first submission with an incorrect choice only inserts the sender
into the answered set; no frame is emitted and nothing else changes. -/
theorem submit_wrong (st : ServerState) (u : Nat) (cid roomId : String) (qi ch : Nat)
    (q : QuizQuestion) (dbOk : Bool) (now : Nat)
    (hr : roomId ≠ "") (hqi : qi < QUESTIONS_PER_QUIZ) (hch : ch ≤ 3)
    (hpart : u ∈ (lookupKV st.redis.roomParticipants roomId).getD [])
    (hcq : lookupKV st.redis.currentQuestion roomId = some (qi : Int))
    (hexp : (roomId, qi) ∉ st.redis.expired)
    (hans : (roomId, qi, u) ∉ st.redis.answered)
    (hq : (lookupKV st.questionsCache roomId).bind (fun qs => qs[qi]?) = some q)
    (hwrong : q.correctIdx ≠ ch) :
    handleSubmitAnswer st ⟨u, cid, some roomId⟩ roomId qi ch dbOk now =
      ({ st with redis := { st.redis with
          answered := (roomId, qi, u) :: st.redis.answered } }, []) := by
  have h1 : ¬ QUESTIONS_PER_QUIZ ≤ qi := Nat.not_le.mpr hqi
  have h2 : ¬ 3 < ch := Nat.not_lt.mpr hch
  simp [handleSubmitAnswer, hr, h1, h2, hpart, hcq, hexp, hans, hq, hwrong]

/-- A correct submission when the first-correct key is already claimed is
absorbed: the sender is added to the answered set, the `SET NX` on
`firstUser` fails, and no frame is emitted. -/
theorem submit_loser (st : ServerState) (u : Nat) (cid roomId : String) (qi ch : Nat)
    (q : QuizQuestion) (dbOk : Bool) (now : Nat)
    (hr : roomId ≠ "") (hqi : qi < QUESTIONS_PER_QUIZ) (hch : ch ≤ 3)
    (hpart : u ∈ (lookupKV st.redis.roomParticipants roomId).getD [])
    (hcq : lookupKV st.redis.currentQuestion roomId = some (qi : Int))
    (hexp : (roomId, qi) ∉ st.redis.expired)
    (hans : (roomId, qi, u) ∉ st.redis.answered)
    (hq : (lookupKV st.questionsCache roomId).bind (fun qs => qs[qi]?) = some q)
    (hcorr : q.correctIdx = ch)
    (hfu : (lookupKV st.redis.firstUser (roomId, qi)).isSome) :
    handleSubmitAnswer st ⟨u, cid, some roomId⟩ roomId qi ch dbOk now =
      ({ st with redis := { st.redis with
          answered := (roomId, qi, u) :: st.redis.answered } }, []) := by
  have h1 : ¬ QUESTIONS_PER_QUIZ ≤ qi := Nat.not_le.mpr hqi
  have h2 : ¬ 3 < ch := Nat.not_lt.mpr hch
  simp [handleSubmitAnswer, hr, h1, h2, hpart, hcq, hexp, hans, hq, hcorr, hfu]

/-- A correct submission that wins the `SET NX` race on `firstUser`:
the sender is recorded in `answered` and `firstUser`, the winning-claim
transaction commits when the store call succeeds and is merely logged when
it fails, the expiry timer is cleared, the next-question timer armed, and
the `endQuestion` broadcast names the sender. -/
theorem submit_winner (st : ServerState) (u : Nat) (cid roomId : String) (qi ch : Nat)
    (q : QuizQuestion) (dbOk : Bool) (now : Nat)
    (hr : roomId ≠ "") (hqi : qi < QUESTIONS_PER_QUIZ) (hch : ch ≤ 3)
    (hpart : u ∈ (lookupKV st.redis.roomParticipants roomId).getD [])
    (hcq : lookupKV st.redis.currentQuestion roomId = some (qi : Int))
    (hexp : (roomId, qi) ∉ st.redis.expired)
    (hans : (roomId, qi, u) ∉ st.redis.answered)
    (hq : (lookupKV st.questionsCache roomId).bind (fun qs => qs[qi]?) = some q)
    (hcorr : q.correctIdx = ch)
    (hfu : lookupKV st.redis.firstUser (roomId, qi) = none) :
    handleSubmitAnswer st ⟨u, cid, some roomId⟩ roomId qi ch dbOk now =
      ({ st with
          db := if dbOk && participantExists st.db.participants roomId u
                   && (claimsFor st.db roomId qi).isEmpty
                then recordClaim st.db roomId qi u else st.db,
          redis := { st.redis with
            answered := (roomId, qi, u) :: st.redis.answered,
            firstUser := setKV st.redis.firstUser (roomId, qi) u },
          timers := setKV (removeKV st.timers (questionTimerKey roomId qi))
            (nextTimerKey roomId qi)
            ⟨now + NEXT_QUESTION_DELAY, (qi : Int) + 1, roomId, .advanceAfter roomId qi⟩ },
       (if dbOk && participantExists st.db.participants roomId u
            && (claimsFor st.db roomId qi).isEmpty then []
        else [.log "Database error recording answer"])
       ++ [.broadcast roomId (.endQuestion qi q.correctIdx (some u))]) := by
  have h1 : ¬ QUESTIONS_PER_QUIZ ≤ qi := Nat.not_le.mpr hqi
  have h2 : ¬ 3 < ch := Nat.not_lt.mpr hch
  simp [handleSubmitAnswer, hr, h1, h2, hpart, hcq, hexp, hans, hq, hcorr, hfu]

/-- Sequential processing of a batch of `submitAnswer` messages for the
same room and question, in arrival order at the per-room serial point. -/
def submitAll (roomId : String) (qi ch : Nat) (dbOk : Bool) (now : Nat) :
    ServerState → List Nat → ServerState × List Out
  | st, [] => (st, [])
  | st, u :: us =>
    let r := handleSubmitAnswer st ⟨u, "", some roomId⟩ roomId qi ch dbOk now
    let r' := submitAll roomId qi ch dbOk now r.1 us
    (r'.1, r.2 ++ r'.2)

/-- An `endQuestion` broadcast that names a winner. -/
def isWinnerEnd : Out → Bool
  | .broadcast _ (.endQuestion _ _ (some _)) => true
  | _ => false

/-- A `quizFinished` broadcast. -/
def isQuizFinishedFrame : Out → Bool
  | .broadcast _ (.quizFinished _) => true
  | _ => false

/-! ### Concrete fixture used by witnesses and counterexamples -/

def qA : QuizQuestion := ⟨101, "q0", ["a", "b", "c", "d"], 2⟩

/-- A room `"r"` hosted by user 1, with participants 1 and 2, question 0
active, nobody answered yet. -/
def exSubmitSt : ServerState :=
  { db := { rooms := [⟨"r", "Room", 1, true, 4⟩],
            users := [(1, some "Alice"), (2, some "Bob")],
            questions := [],
            participants := [⟨"r", 1, 0⟩, ⟨"r", 2, 0⟩],
            claims := [], ratings := [] },
    redis := { currentQuestion := [("r", 0)],
               roomParticipants := [("r", [1, 2])],
               startTime := [("r", 0)],
               answered := [], firstUser := [], expired := [] },
    questionsCache := [("r", [qA])],
    timers := [], roomSockets := [("r", ["c1", "c2"])],
    userConnections := [], rateLimitMap := [] }

/-- Claim C3: the first `submitAnswer` of a user for an active question
adds them to the answered set whatever their choice was; a second
`submitAnswer` by the same user for the same `(roomId, questionIndex)`
within the round is silently ignored — state unchanged and no frame, not
even an error frame; and when the first choice was incorrect, the first
submission produced no claim: the relational store and the `firstUser` key
are untouched and no frame was emitted. -/
theorem c3_duplicate_submissions_ignored (st : ServerState) (u : Nat) (cid roomId : String)
    (qi ch1 ch2 : Nat) (q : QuizQuestion) (dbOk1 dbOk2 : Bool) (now1 now2 : Nat)
    (hr : roomId ≠ "") (hqi : qi < QUESTIONS_PER_QUIZ)
    (hch1 : ch1 ≤ 3) (hch2 : ch2 ≤ 3)
    (hpart : u ∈ (lookupKV st.redis.roomParticipants roomId).getD [])
    (hcq : lookupKV st.redis.currentQuestion roomId = some (qi : Int))
    (hexp : (roomId, qi) ∉ st.redis.expired)
    (hans : (roomId, qi, u) ∉ st.redis.answered)
    (hq : (lookupKV st.questionsCache roomId).bind (fun qs => qs[qi]?) = some q) :
    (roomId, qi, u) ∈
      (handleSubmitAnswer st ⟨u, cid, some roomId⟩ roomId qi ch1 dbOk1 now1).1.redis.answered
    ∧ handleSubmitAnswer
        (handleSubmitAnswer st ⟨u, cid, some roomId⟩ roomId qi ch1 dbOk1 now1).1
        ⟨u, cid, some roomId⟩ roomId qi ch2 dbOk2 now2 =
      ((handleSubmitAnswer st ⟨u, cid, some roomId⟩ roomId qi ch1 dbOk1 now1).1, [])
    ∧ (q.correctIdx ≠ ch1 →
        (handleSubmitAnswer st ⟨u, cid, some roomId⟩ roomId qi ch1 dbOk1 now1).1.db = st.db
        ∧ lookupKV (handleSubmitAnswer st ⟨u, cid, some roomId⟩ roomId qi ch1 dbOk1
              now1).1.redis.firstUser (roomId, qi)
            = lookupKV st.redis.firstUser (roomId, qi)
        ∧ (handleSubmitAnswer st ⟨u, cid, some roomId⟩ roomId qi ch1 dbOk1 now1).2 = []) := by
  by_cases hc : q.correctIdx = ch1
  · by_cases hfu : (lookupKV st.redis.firstUser (roomId, qi)).isSome
    · rw [submit_loser st u cid roomId qi ch1 q dbOk1 now1 hr hqi hch1 hpart hcq hexp hans
        hq hc hfu]
      refine ⟨by simp, ?_, fun hw => absurd hc hw⟩
      exact submit_dup _ u cid roomId qi ch2 dbOk2 now2 hr hqi hch2 hpart hcq hexp (by simp)
    · have hfu' : lookupKV st.redis.firstUser (roomId, qi) = none :=
        Option.not_isSome_iff_eq_none.mp hfu
      rw [submit_winner st u cid roomId qi ch1 q dbOk1 now1 hr hqi hch1 hpart hcq hexp hans
        hq hc hfu']
      refine ⟨by simp, ?_, fun hw => absurd hc hw⟩
      exact submit_dup _ u cid roomId qi ch2 dbOk2 now2 hr hqi hch2 hpart hcq hexp (by simp)
  · rw [submit_wrong st u cid roomId qi ch1 q dbOk1 now1 hr hqi hch1 hpart hcq hexp hans hq hc]
    refine ⟨by simp, ?_, fun _ => ⟨rfl, rfl, rfl⟩⟩
    exact submit_dup _ u cid roomId qi ch2 dbOk2 now2 hr hqi hch2 hpart hcq hexp (by simp)

theorem c3_duplicate_submissions_ignored_witness :
    (handleSubmitAnswer exSubmitSt ⟨1, "c1", some "r"⟩ "r" 0 0 true 1000).2 = []
    ∧ handleSubmitAnswer (handleSubmitAnswer exSubmitSt ⟨1, "c1", some "r"⟩ "r" 0 0 true 1000).1
        ⟨1, "c1", some "r"⟩ "r" 0 2 true 1001 =
      ((handleSubmitAnswer exSubmitSt ⟨1, "c1", some "r"⟩ "r" 0 0 true 1000).1, []) :=
  ⟨((c3_duplicate_submissions_ignored exSubmitSt 1 "c1" "r" 0 0 2 qA true true 1000 1001
      (by decide) (by decide) (by decide) (by decide) (by decide) (by decide) (by decide)
      (by decide) (by decide)).2.2 (by decide)).2.2,
   (c3_duplicate_submissions_ignored exSubmitSt 1 "c1" "r" 0 0 2 qA true true 1000 1001
      (by decide) (by decide) (by decide) (by decide) (by decide) (by decide) (by decide)
      (by decide) (by decide)).2.1⟩

theorem claimsFor_recordClaim (db : Db) (roomId : String) (qi u : Nat) :
    claimsFor (recordClaim db roomId qi u) roomId qi =
      ⟨roomId, qi, u⟩ :: claimsFor db roomId qi := by
  simp [claimsFor, recordClaim]

/-- Once `firstUser` is claimed, a whole batch of further correct
submissions by eligible, not-yet-answered, pairwise-distinct users is
absorbed: no output frame at all, no relational-store change, and the
winner key keeps its holder. -/
theorem submitAll_absorbed (roomId : String) (qi : Nat) (q : QuizQuestion) (dbOk : Bool)
    (now w : Nat)
    (hr : roomId ≠ "") (hqi : qi < QUESTIONS_PER_QUIZ) (hch : q.correctIdx ≤ 3) :
    ∀ (us : List Nat) (st : ServerState),
      (lookupKV st.questionsCache roomId).bind (fun qs => qs[qi]?) = some q →
      lookupKV st.redis.currentQuestion roomId = some (qi : Int) →
      (roomId, qi) ∉ st.redis.expired →
      lookupKV st.redis.firstUser (roomId, qi) = some w →
      (∀ u ∈ us, u ∈ (lookupKV st.redis.roomParticipants roomId).getD []) →
      (∀ u ∈ us, (roomId, qi, u) ∉ st.redis.answered) →
      us.Nodup →
      (submitAll roomId qi q.correctIdx dbOk now st us).2 = []
      ∧ (submitAll roomId qi q.correctIdx dbOk now st us).1.db = st.db
      ∧ lookupKV (submitAll roomId qi q.correctIdx dbOk now st us).1.redis.firstUser
          (roomId, qi) = some w := by
  intro us
  induction us with
  | nil =>
    intro st _ _ _ hfu _ _ _
    exact ⟨rfl, rfl, hfu⟩
  | cons u us ih =>
    intro st hq hcq hexp hfu hparts hans hnd
    have hfuS : (lookupKV st.redis.firstUser (roomId, qi)).isSome := by simp [hfu]
    have heq := submit_loser st u "" roomId qi q.correctIdx q dbOk now hr hqi hch
      (hparts u (by simp)) hcq hexp (hans u (by simp)) hq rfl hfuS
    have hnd' := List.nodup_cons.mp hnd
    have hans' : ∀ u' ∈ us,
        (roomId, qi, u') ∉ ((roomId, qi, u) :: st.redis.answered) := by
      intro u' hu' hmem
      rcases List.mem_cons.mp hmem with h1 | h2
      · have : u' = u := by
          simpa using congrArg (fun t => t.2.2) h1
        exact hnd'.1 (this ▸ hu')
      · exact hans u' (by simp [hu']) h2
    obtain ⟨o1, o2, o3⟩ := ih
      ({ st with redis := { st.redis with
          answered := (roomId, qi, u) :: st.redis.answered } })
      hq hcq hexp hfu (fun u' hu' => hparts u' (by simp [hu'])) hans' hnd'.2
    refine ⟨?_, ?_, ?_⟩
    · simp only [submitAll, heq]
      simpa using o1
    · simp only [submitAll, heq]
      exact o2
    · simp only [submitAll, heq]
      exact o3

/-- Claim C1: while question `qi` is active (it is the current question,
not expired, the `firstUser` key is empty and no `AnswerClaim` row exists),
if any nonempty batch of distinct eligible participants submits the
correct choice, then exactly one `endQuestion` broadcast naming a winner
is emitted, it names the first submitter, at most one `AnswerClaim` row
exists for `(roomId, qi)` afterwards, and all later correct submissions
are absorbed with no effect on the store and no output. -/
theorem c1_first_correct_unique (st : ServerState) (roomId : String) (qi : Nat)
    (q : QuizQuestion) (u0 : Nat) (rest : List Nat) (dbOk : Bool) (now : Nat)
    (hr : roomId ≠ "") (hqi : qi < QUESTIONS_PER_QUIZ) (hch : q.correctIdx ≤ 3)
    (hq : (lookupKV st.questionsCache roomId).bind (fun qs => qs[qi]?) = some q)
    (hcq : lookupKV st.redis.currentQuestion roomId = some (qi : Int))
    (hexp : (roomId, qi) ∉ st.redis.expired)
    (hfu : lookupKV st.redis.firstUser (roomId, qi) = none)
    (hclaims : claimsFor st.db roomId qi = [])
    (hnd : (u0 :: rest).Nodup)
    (hparts : ∀ u ∈ u0 :: rest, u ∈ (lookupKV st.redis.roomParticipants roomId).getD [])
    (hans : ∀ u ∈ u0 :: rest, (roomId, qi, u) ∉ st.redis.answered) :
    (submitAll roomId qi q.correctIdx dbOk now st (u0 :: rest)).2.countP isWinnerEnd = 1
    ∧ (submitAll roomId qi q.correctIdx dbOk now st (u0 :: rest)).2.filter isWinnerEnd
        = [.broadcast roomId (.endQuestion qi q.correctIdx (some u0))]
    ∧ (claimsFor (submitAll roomId qi q.correctIdx dbOk now st
        (u0 :: rest)).1.db roomId qi).length ≤ 1
    ∧ lookupKV (submitAll roomId qi q.correctIdx dbOk now st
        (u0 :: rest)).1.redis.firstUser (roomId, qi) = some u0 := by
  have heq := submit_winner st u0 "" roomId qi q.correctIdx q dbOk now hr hqi hch
    (hparts u0 (by simp)) hcq hexp (hans u0 (by simp)) hq rfl hfu
  have hnd' := List.nodup_cons.mp hnd
  have hans1 : ∀ u' ∈ rest, (roomId, qi, u') ∉ ((roomId, qi, u0) :: st.redis.answered) := by
    intro u' hu' hmem
    rcases List.mem_cons.mp hmem with h1 | h2
    · have : u' = u0 := by simpa using congrArg (fun t => t.2.2) h1
      exact hnd'.1 (this ▸ hu')
    · exact hans u' (by simp [hu']) h2
  obtain ⟨o1, o2, o3⟩ := submitAll_absorbed roomId qi q dbOk now u0 hr hqi hch rest
    ({ st with
        db := if dbOk && participantExists st.db.participants roomId u0
                 && (claimsFor st.db roomId qi).isEmpty
              then recordClaim st.db roomId qi u0 else st.db,
        redis := { st.redis with
          answered := (roomId, qi, u0) :: st.redis.answered,
          firstUser := setKV st.redis.firstUser (roomId, qi) u0 },
        timers := setKV (removeKV st.timers (questionTimerKey roomId qi))
          (nextTimerKey roomId qi)
          ⟨now + NEXT_QUESTION_DELAY, (qi : Int) + 1, roomId, .advanceAfter roomId qi⟩ })
    hq hcq hexp (lookupKV_setKV_self _ _ _) (fun u' hu' => hparts u' (by simp [hu']))
    hans1 hnd'.2
  refine ⟨?_, ?_, ?_, ?_⟩
  · simp only [submitAll, heq]
    rw [o1]
    cases hdb : (dbOk && participantExists st.db.participants roomId u0
        && (claimsFor st.db roomId qi).isEmpty) with
    | true => simp [hdb, isWinnerEnd]
    | false => simp [hdb, isWinnerEnd]
  · simp only [submitAll, heq]
    rw [o1]
    cases hdb : (dbOk && participantExists st.db.participants roomId u0
        && (claimsFor st.db roomId qi).isEmpty) with
    | true => simp [hdb, isWinnerEnd]
    | false => simp [hdb, isWinnerEnd]
  · simp only [submitAll, heq]
    rw [o2]
    cases hdb : (dbOk && participantExists st.db.participants roomId u0
        && (claimsFor st.db roomId qi).isEmpty) with
    | true => simp [hdb, claimsFor_recordClaim, hclaims]
    | false => simp [hdb, hclaims]
  · simp only [submitAll, heq]
    exact o3

theorem c1_first_correct_unique_witness :
    (submitAll "r" 0 2 true 5000 exSubmitSt [1, 2]).2.countP isWinnerEnd = 1
    ∧ (submitAll "r" 0 2 true 5000 exSubmitSt [1, 2]).2.filter isWinnerEnd
        = [.broadcast "r" (.endQuestion 0 2 (some 1))]
    ∧ (claimsFor (submitAll "r" 0 2 true 5000 exSubmitSt [1, 2]).1.db "r" 0).length ≤ 1
    ∧ lookupKV (submitAll "r" 0 2 true 5000 exSubmitSt [1, 2]).1.redis.firstUser ("r", 0)
        = some 1 :=
  c1_first_correct_unique exSubmitSt "r" 0 qA 1 [2] true 5000 (by decide) (by decide)
    (by decide) (by decide) (by decide) (by decide) (by decide) (by decide) (by decide)
    (by decide) (by decide)

/-- Description of `handleQuestionExpiry` when no winner has claimed:
mark the question expired, arm the next-question timer, and broadcast the
timeout `endQuestion`. -/
theorem expiry_marks (st : ServerState) (roomId : String) (qi now : Nat) (q : QuizQuestion)
    (hq : (lookupKV st.questionsCache roomId).bind (fun qs => qs[qi]?) = some q)
    (hfu : lookupKV st.redis.firstUser (roomId, qi) = none) :
    handleQuestionExpiry st roomId qi now =
      ({ st with
          redis := { st.redis with expired := (roomId, qi) :: st.redis.expired },
          timers := setKV st.timers (nextTimerKey roomId qi)
            ⟨now + NEXT_QUESTION_DELAY, (qi : Int) + 1, roomId, .advanceAfter roomId qi⟩ },
       [.broadcast roomId (.endQuestion qi q.correctIdx none)]) := by
  simp [handleQuestionExpiry, hq, hfu]

/-- Once the `expired` flag is set for `(roomId, qi)`, a `submitAnswer`
for that question leaves the entire state unchanged and emits no winner
frame, whatever the sender and choice are. -/
theorem submit_expired_noop (st : ServerState) (conn : Conn) (roomId : String)
    (qi ch : Nat) (dbOk : Bool) (now : Nat)
    (hexp : (roomId, qi) ∈ st.redis.expired) :
    (handleSubmitAnswer st conn roomId qi ch dbOk now).1 = st
    ∧ (handleSubmitAnswer st conn roomId qi ch dbOk now).2.countP isWinnerEnd = 0 := by
  by_cases h1 : roomId = ""
  · simp [handleSubmitAnswer, h1, isWinnerEnd]
  by_cases h2 : QUESTIONS_PER_QUIZ ≤ qi
  · simp [handleSubmitAnswer, h1, h2, isWinnerEnd]
  by_cases h3 : 3 < ch
  · simp [handleSubmitAnswer, h1, h2, h3, isWinnerEnd]
  by_cases h4 : conn.currentRoom = some roomId
  · by_cases h5 : conn.userId ∈ (lookupKV st.redis.roomParticipants roomId).getD []
    · by_cases h6 : lookupKV st.redis.currentQuestion roomId = some (qi : Int)
      · simp [handleSubmitAnswer, h1, h2, h3, h4, h5, h6, hexp, isWinnerEnd]
      · simp [handleSubmitAnswer, h1, h2, h3, h4, h5, h6, isWinnerEnd]
    · simp [handleSubmitAnswer, h1, h2, h3, h4, h5, isWinnerEnd]
  · simp [handleSubmitAnswer, h1, h2, h3, h4, isWinnerEnd]

/-- Claim C4 (amended): every question entering the asking phase is
broadcast with `expiresAt = startedAt + QUESTION_TIME_LIMIT` and its
expiry timer is armed for exactly that duration; and once the expiry
handler has run for a question with no winner recorded, every later
`submitAnswer` for it changes nothing and names no winner (an eligible
sender receives `410 Question has expired`).  However — see the
counterexample — when a winner's claim has cancelled the expiry timer, a
submission arriving at or after `expiresAt` but before the next question
can still be added to the answered set. -/
theorem c4_deadline_enforcement :
    (∀ (st : ServerState) (roomId : String) (qi now : Nat) (q : QuizQuestion),
      (lookupKV st.questionsCache roomId).bind (fun qs => qs[qi]?) = some q →
      (handleNextQuestion st roomId qi now).2
          = [.broadcast roomId (.nextQuestion qi q now (now + QUESTION_TIME_LIMIT))]
        ∧ lookupKV (handleNextQuestion st roomId qi now).1.timers
            (questionTimerKey roomId qi)
          = some ⟨now + QUESTION_TIME_LIMIT, (qi : Int), roomId, .questionExpiry roomId qi⟩)
    ∧ (∀ (st : ServerState) (roomId : String) (qi now : Nat) (q : QuizQuestion)
        (conn : Conn) (ch : Nat) (dbOk : Bool) (now' : Nat),
      (lookupKV st.questionsCache roomId).bind (fun qs => qs[qi]?) = some q →
      lookupKV st.redis.firstUser (roomId, qi) = none →
      (handleSubmitAnswer (handleQuestionExpiry st roomId qi now).1 conn roomId qi ch
          dbOk now').1
        = (handleQuestionExpiry st roomId qi now).1
      ∧ (handleSubmitAnswer (handleQuestionExpiry st roomId qi now).1 conn roomId qi ch
          dbOk now').2.countP isWinnerEnd = 0) := by
  constructor
  · intro st roomId qi now q hq
    refine ⟨by simp [handleNextQuestion, hq], ?_⟩
    simp only [handleNextQuestion, hq]
    simp [lookupKV_setKV_self]
  · intro st roomId qi now q conn ch dbOk now' hq hfu
    rw [expiry_marks st roomId qi now q hq hfu]
    exact submit_expired_noop _ conn roomId qi ch dbOk now' (by simp)

theorem c4_deadline_enforcement_witness :
    ((handleNextQuestion exSubmitSt "r" 0 0).2
        = [.broadcast "r" (.nextQuestion 0 qA 0 (0 + QUESTION_TIME_LIMIT))]
      ∧ lookupKV (handleNextQuestion exSubmitSt "r" 0 0).1.timers (questionTimerKey "r" 0)
        = some ⟨0 + QUESTION_TIME_LIMIT, 0, "r", .questionExpiry "r" 0⟩)
    ∧ ((handleSubmitAnswer (handleQuestionExpiry exSubmitSt "r" 0 10000).1
          ⟨2, "c2", some "r"⟩ "r" 0 2 true 10500).1
        = (handleQuestionExpiry exSubmitSt "r" 0 10000).1
      ∧ (handleSubmitAnswer (handleQuestionExpiry exSubmitSt "r" 0 10000).1
          ⟨2, "c2", some "r"⟩ "r" 0 2 true 10500).2.countP isWinnerEnd = 0) :=
  ⟨c4_deadline_enforcement.1 exSubmitSt "r" 0 0 qA (by decide),
   c4_deadline_enforcement.2 exSubmitSt "r" 0 10000 qA ⟨2, "c2", some "r"⟩ 2 true 10500
     (by decide) (by decide)⟩

/-- The trace refuting claim C4 as stated: the quiz-start timer fires at
t = 0, so question 0 is asked with `startedAt = 0`, `expiresAt = 10000`;
user 1 submits the correct choice at t = 9000 and wins, which clears the
expiry timer; the Node timer event for t = 10000 therefore finds no timer
and does nothing; user 2's submission arriving at t = 11000 — at server
time past `expiresAt`, while `currentQuestion` is still 0 and the next
question (scheduled for t = 12000) has not begun. -/
def ex4St : ServerState :=
  { db := { rooms := [⟨"r", "Room", 1, true, 4⟩],
            users := [(1, some "Alice"), (2, some "Bob")],
            questions := [],
            participants := [⟨"r", 1, 0⟩, ⟨"r", 2, 0⟩],
            claims := [], ratings := [] },
    redis := { currentQuestion := [], roomParticipants := [("r", [1, 2])],
               startTime := [], answered := [], firstUser := [], expired := [] },
    questionsCache := [("r", [qA])],
    timers := [("r:start", ⟨0, -1, "r", .startFirstQuestion "r"⟩)],
    roomSockets := [("r", ["c1", "c2"])],
    userConnections := [], rateLimitMap := [] }

def ex4Trace : List QEvent :=
  [ .timerFire 0 "r:start",
    .message 9000 ⟨1, "c1", some "r"⟩ "r" 0 2 true,
    .timerFire 10000 "r:0",
    .message 11000 ⟨2, "c2", some "r"⟩ "r" 0 0 true ]

/-- Counterexample to claim C4: question 0 entered Asking with
`expiresAt = 10000`, yet the submission arriving at server time 11000 —
at/after `expiresAt` — is still counted into the answered set, because the
winning claim at t = 9000 cancelled the expiry timer and the `expired`
flag was never written. -/
theorem c4_counterexample :
    (Out.broadcast "r" (.nextQuestion 0 qA 0 (0 + QUESTION_TIME_LIMIT)))
        ∈ (runEvents ex4St ex4Trace).2
    ∧ ("r", 0, 2) ∈ (runEvents ex4St ex4Trace).1.redis.answered
    ∧ 0 + QUESTION_TIME_LIMIT ≤ 11000 := by
  refine ⟨?_, ?_, by decide⟩
  · decide
  · decide

/-! ### Claim C9: store failure during a winning claim -/

/-- Counterexample to claim C9: user 1 wins question 0 while the
relational store is failing (`dbOk = false`).  The handler merely logs
`Database error recording answer` and proceeds: the winner broadcast still
goes out, no `quizFinished` broadcast is attempted, the store is left
untouched, and nothing in the server state marks the room dead (the state
has no such notion). -/
theorem c9_counterexample :
    (handleSubmitAnswer exSubmitSt ⟨1, "c1", some "r"⟩ "r" 0 2 false 5000).2
      = [.log "Database error recording answer",
         .broadcast "r" (.endQuestion 0 2 (some 1))]
    ∧ (handleSubmitAnswer exSubmitSt ⟨1, "c1", some "r"⟩ "r" 0 2 false
        5000).2.countP isQuizFinishedFrame = 0
    ∧ (handleSubmitAnswer exSubmitSt ⟨1, "c1", some "r"⟩ "r" 0 2 false 5000).1.db
      = exSubmitSt.db := by
  refine ⟨by decide, by decide, by decide⟩

/-- Claim C9 (amended): when the transaction recording a winning claim
fails, the failure is logged and processing continues exactly as on
success except that the `AnswerClaim` row and the score increment are
lost: the relational store is unchanged, the outputs are precisely the log
line followed by the `endQuestion` broadcast naming the winner (in
particular no `quizFinished` broadcast and no retry), and the
next-question timer is armed. -/
theorem c9_db_failure_logs_and_continues (st : ServerState) (u : Nat) (cid roomId : String)
    (qi : Nat) (q : QuizQuestion) (now : Nat)
    (hr : roomId ≠ "") (hqi : qi < QUESTIONS_PER_QUIZ) (hch : q.correctIdx ≤ 3)
    (hpart : u ∈ (lookupKV st.redis.roomParticipants roomId).getD [])
    (hcq : lookupKV st.redis.currentQuestion roomId = some (qi : Int))
    (hexp : (roomId, qi) ∉ st.redis.expired)
    (hans : (roomId, qi, u) ∉ st.redis.answered)
    (hq : (lookupKV st.questionsCache roomId).bind (fun qs => qs[qi]?) = some q)
    (hfu : lookupKV st.redis.firstUser (roomId, qi) = none) :
    (handleSubmitAnswer st ⟨u, cid, some roomId⟩ roomId qi q.correctIdx false now).1.db
      = st.db
    ∧ (handleSubmitAnswer st ⟨u, cid, some roomId⟩ roomId qi q.correctIdx false now).2
      = [.log "Database error recording answer",
         .broadcast roomId (.endQuestion qi q.correctIdx (some u))]
    ∧ (handleSubmitAnswer st ⟨u, cid, some roomId⟩ roomId qi q.correctIdx false
        now).2.countP isQuizFinishedFrame = 0
    ∧ lookupKV (handleSubmitAnswer st ⟨u, cid, some roomId⟩ roomId qi q.correctIdx false
        now).1.timers (nextTimerKey roomId qi)
      = some ⟨now + NEXT_QUESTION_DELAY, (qi : Int) + 1, roomId, .advanceAfter roomId qi⟩ := by
  rw [submit_winner st u cid roomId qi q.correctIdx q false now hr hqi hch hpart hcq hexp
    hans hq rfl hfu]
  refine ⟨by simp, by simp, by simp [isQuizFinishedFrame], ?_⟩
  simp [lookupKV_setKV_self]

theorem c9_db_failure_logs_and_continues_witness :
    (handleSubmitAnswer exSubmitSt ⟨1, "c1", some "r"⟩ "r" 0 2 false 5000).1.db
      = exSubmitSt.db
    ∧ (handleSubmitAnswer exSubmitSt ⟨1, "c1", some "r"⟩ "r" 0 2 false 5000).2
      = [.log "Database error recording answer",
         .broadcast "r" (.endQuestion 0 2 (some 1))] := by
  have h := c9_db_failure_logs_and_continues exSubmitSt 1 "c1" "r" 0 qA 5000 (by decide)
    (by decide) (by decide) (by decide) (by decide) (by decide) (by decide) (by decide)
    (by decide)
  exact ⟨h.1, h.2.1⟩

/-! ### Claim C8: re-join behaviour -/

/-- Counterexample to claim C8: user 1 is already a participant of room
`"r"`; a second `join` leaves the participant table unchanged (the upsert
is a no-op) but `participantJoined` is broadcast again — the broadcast is
unconditional in `handleJoinRoom`, so the claimed "no broadcast beyond the
first" is false. -/
theorem c8_counterexample :
    (handleJoinRoom exSubmitSt ⟨1, "c1", some "r"⟩ "r").1.db.participants
      = exSubmitSt.db.participants
    ∧ (Out.broadcast "r" (.participantJoined 1 "Alice"))
        ∈ (handleJoinRoom exSubmitSt ⟨1, "c1", some "r"⟩ "r").2.2 := by
  refine ⟨by decide, by decide⟩

/-- Claim C8 (amended): when a user who is already a participant of an
active, not-yet-full room joins it again, the participant row set is
unchanged (the upsert with an empty update and the unique key on
`(roomId, userId)` prevent any duplicate row), but the server re-emits the
`participantJoined` broadcast and the `joinedRoom` reply exactly as on
a first join. -/
theorem c8_rejoin_row_unchanged_but_rebroadcast (st : ServerState) (conn : Conn)
    (roomId : String) (rm : RoomRow) (ep : ParticipantRow)
    (hr : ¬ (roomId = "" ∨ 50 < roomId.length))
    (hroom : st.db.rooms.find? (fun x => x.id == roomId && x.isActive) = some rm)
    (hfull : (st.db.participants.filter (fun p => p.roomId == roomId)).length < rm.maxPlayers)
    (hex : st.db.participants.find? (fun p => p.userId == conn.userId) = some ep)
    (hep : ep.roomId = roomId)
    (hmem : participantExists st.db.participants roomId conn.userId = true) :
    (handleJoinRoom st conn roomId).1.db.participants = st.db.participants
    ∧ (handleJoinRoom st conn roomId).2.2 =
        [.broadcast roomId
           (.participantJoined conn.userId (userNameOf st.db.users conn.userId)),
         .reply (.joinedRoom roomId)] := by
  have hnf : ¬ rm.maxPlayers ≤
      (st.db.participants.filter (fun p => p.roomId == roomId)).length :=
    Nat.not_le.mpr hfull
  constructor
  · simp [handleJoinRoom, hr, hroom, hnf, hex, hep, joinCommit, hmem]
  · simp [handleJoinRoom, hr, hroom, hnf, hex, hep, joinCommit, hmem]

theorem c8_rejoin_witness :
    (handleJoinRoom exSubmitSt ⟨1, "c1", some "r"⟩ "r").1.db.participants
      = exSubmitSt.db.participants
    ∧ (handleJoinRoom exSubmitSt ⟨1, "c1", some "r"⟩ "r").2.2 =
        [.broadcast "r" (.participantJoined 1 (userNameOf exSubmitSt.db.users 1)),
         .reply (.joinedRoom "r")] :=
  c8_rejoin_row_unchanged_but_rebroadcast exSubmitSt ⟨1, "c1", some "r"⟩ "r"
    ⟨"r", "Room", 1, true, 4⟩ ⟨"r", 1, 0⟩ (by decide) (by decide) (by decide) (by decide)
    (by decide) (by decide)

/-! ### Claim C2: final standings and ratings -/

theorem mem_insertDesc (a b : ParticipantRow) (l : List ParticipantRow) :
    b ∈ insertDesc a l ↔ b = a ∨ b ∈ l := by
  induction l with
  | nil => simp [insertDesc]
  | cons x t ih =>
    by_cases h : a.score < x.score
    · simp only [insertDesc, if_pos h, List.mem_cons, ih]
      tauto
    · simp only [insertDesc, if_neg h, List.mem_cons]

theorem insertDesc_perm (a : ParticipantRow) (l : List ParticipantRow) :
    List.Perm (insertDesc a l) (a :: l) := by
  induction l with
  | nil => rfl
  | cons x t ih =>
    by_cases h : a.score < x.score
    · simp only [insertDesc, if_pos h]
      exact (ih.cons x).trans (List.Perm.swap a x t)
    · simp only [insertDesc, if_neg h]
      exact List.Perm.refl _

theorem sortByScoreDesc_perm (l : List ParticipantRow) :
    List.Perm (sortByScoreDesc l) l := by
  induction l with
  | nil => rfl
  | cons a t ih => exact (insertDesc_perm a (sortByScoreDesc t)).trans (ih.cons a)

theorem pairwise_insertDesc (a : ParticipantRow) (l : List ParticipantRow)
    (h : l.Pairwise (fun x y => y.score ≤ x.score)) :
    (insertDesc a l).Pairwise (fun x y => y.score ≤ x.score) := by
  induction l with
  | nil => simp [insertDesc]
  | cons x t ih =>
    obtain ⟨hx, ht⟩ := List.pairwise_cons.mp h
    by_cases hlt : a.score < x.score
    · simp only [insertDesc, if_pos hlt]
      refine List.pairwise_cons.mpr ⟨?_, ih ht⟩
      intro y hy
      rcases (mem_insertDesc a y t).mp hy with h1 | h2
      · exact h1 ▸ Nat.le_of_lt hlt
      · exact hx y h2
    · simp only [insertDesc, if_neg hlt]
      refine List.pairwise_cons.mpr ⟨?_, h⟩
      intro y hy
      rcases List.mem_cons.mp hy with h1 | h2
      · exact h1 ▸ Nat.le_of_not_lt hlt
      · exact le_trans (hx y h2) (Nat.le_of_not_lt hlt)

theorem sortByScoreDesc_pairwise (l : List ParticipantRow) :
    (sortByScoreDesc l).Pairwise (fun x y => y.score ≤ x.score) := by
  induction l with
  | nil => simp [sortByScoreDesc]
  | cons a t ih => exact pairwise_insertDesc a (sortByScoreDesc t) ih

theorem mapEqOn {α β : Type} (l : List α) (f g : α → β) (h : ∀ a ∈ l, f a = g a) :
    l.map f = l.map g := by
  induction l with
  | nil => rfl
  | cons a t ih =>
    simp only [List.map_cons, h a (by simp)]
    rw [ih (fun a' ha' => h a' (by simp [ha']))]

theorem computeStandings_lookup_out (users : List (Nat × Option String)) :
    ∀ (parts : List ParticipantRow) (ratings : List (Nat × Int)) (u : Nat),
      u ∉ parts.map (fun p => p.userId) →
      lookupKV (computeStandings ratings users parts).1 u = lookupKV ratings u := by
  intro parts
  induction parts with
  | nil => intro ratings u _; rfl
  | cons p t ih =>
    intro ratings u hu
    simp only [List.map_cons, List.mem_cons] at hu
    push_neg at hu
    simp only [computeStandings]
    rw [ih _ u hu.2, lookupKV_setKV_ne _ _ _ _ hu.1]

/-- The standings entry the source computes for participant `p` against a
given ratings table. -/
def standingOf (ratings : List (Nat × Int)) (users : List (Nat × Option String))
    (p : ParticipantRow) : Standing :=
  ⟨p.userId, userNameOf users p.userId, p.score,
   ratingBase (lookupKV ratings p.userId) + (p.score : Int) * 10⟩

theorem computeStandings_standings (users : List (Nat × Option String)) :
    ∀ (parts : List ParticipantRow) (ratings : List (Nat × Int)),
      (parts.map (fun p => p.userId)).Nodup →
      (computeStandings ratings users parts).2 = parts.map (standingOf ratings users) := by
  intro parts
  induction parts with
  | nil => intro ratings _; rfl
  | cons p t ih =>
    intro ratings hnd
    have hnd2 := hnd
    rw [List.map_cons, List.nodup_cons] at hnd2
    obtain ⟨hp, ht⟩ := hnd2
    simp only [computeStandings, List.map_cons]
    congr 1
    rw [ih _ ht]
    apply mapEqOn
    intro p' hp'
    have hne : p'.userId ≠ p.userId := by
      intro hcontra
      exact hp (hcontra ▸ List.mem_map_of_mem (fun x => x.userId) hp')
    simp only [standingOf]
    rw [lookupKV_setKV_ne _ _ _ _ hne]

theorem computeStandings_persists (users : List (Nat × Option String)) :
    ∀ (parts : List ParticipantRow) (ratings : List (Nat × Int)),
      (parts.map (fun p => p.userId)).Nodup →
      ∀ p ∈ parts, lookupKV (computeStandings ratings users parts).1 p.userId
        = some (ratingBase (lookupKV ratings p.userId) + (p.score : Int) * 10) := by
  intro parts
  induction parts with
  | nil => intro ratings _ p hp; exact absurd hp (by simp)
  | cons p t ih =>
    intro ratings hnd p' hp'
    have hnd2 := hnd
    rw [List.map_cons, List.nodup_cons] at hnd2
    obtain ⟨hp, ht⟩ := hnd2
    rcases List.mem_cons.mp hp' with h1 | h2
    · subst h1
      simp only [computeStandings]
      rw [computeStandings_lookup_out users t _ p'.userId hp,
        lookupKV_setKV_self]
    · have hne : p'.userId ≠ p.userId := by
        intro hcontra
        exact hp (hcontra ▸ List.mem_map_of_mem (fun x => x.userId) h2)
      simp only [computeStandings]
      rw [ih _ ht p' h2, lookupKV_setKV_ne _ _ _ _ hne]

/-- Claim C2 (amended): when the quiz finishes, the single `quizFinished`
broadcast carries, for each participant of the room in stable
score-descending order (table order on ties — no userId tie-break),
`newRating = (storedRating || 1200) + score * 10`, where a missing row or
a stored rating of 0 falls back to 1200 but a stored rating below 1200 is
used as is; the scores in the standings are descending; and the new rating
of every participant is persisted in the `PlayerRating` table. -/
theorem c2_final_standings (st : ServerState) (roomId : String)
    (hnodup : ((st.db.participants.filter (fun p => p.roomId == roomId)).map
      (fun p => p.userId)).Nodup) :
    (handleQuizFinished st roomId).2
      = [.broadcast roomId (.quizFinished
          ((sortByScoreDesc (st.db.participants.filter (fun p => p.roomId == roomId))).map
            (standingOf st.db.ratings st.db.users)))]
    ∧ (sortByScoreDesc (st.db.participants.filter
        (fun p => p.roomId == roomId))).Pairwise (fun x y => y.score ≤ x.score)
    ∧ ∀ p ∈ sortByScoreDesc (st.db.participants.filter (fun p => p.roomId == roomId)),
        lookupKV (handleQuizFinished st roomId).1.db.ratings p.userId
          = some (ratingBase (lookupKV st.db.ratings p.userId) + (p.score : Int) * 10) := by
  have hperm : List.Perm
      ((sortByScoreDesc (st.db.participants.filter
        (fun p => p.roomId == roomId))).map (fun p => p.userId))
      ((st.db.participants.filter (fun p => p.roomId == roomId)).map
        (fun p => p.userId)) :=
    (sortByScoreDesc_perm _).map _
  have hnd' : ((sortByScoreDesc (st.db.participants.filter
      (fun p => p.roomId == roomId))).map (fun p => p.userId)).Nodup :=
    hperm.nodup_iff.mpr hnodup
  refine ⟨?_, sortByScoreDesc_pairwise _, ?_⟩
  · simp only [handleQuizFinished]
    rw [computeStandings_standings st.db.users _ st.db.ratings hnd']
  · intro p hp
    simp only [handleQuizFinished]
    exact computeStandings_persists st.db.users _ st.db.ratings hnd' p hp

/-! #### Spec-side definitions for C2 (from the specification's words) -/

/-- Spec words: `newRating := max(1200, prevRating) + score * 10`, with
`prevRating` the stored rating or 1200 when absent. -/
def specNewRating (prev : Option Int) (score : Nat) : Int :=
  max 1200 (prev.getD 1200) + (score : Int) * 10

/-- Spec words: sorted by score descending, ties broken by ascending
`userId`. -/
def specInsertStanding (a : Standing) : List Standing → List Standing
  | [] => [a]
  | x :: t => if a.score < x.score ∨ (a.score = x.score ∧ x.userId < a.userId) then
      x :: specInsertStanding a t
    else a :: x :: t

def specSortStandings : List Standing → List Standing
  | [] => []
  | a :: t => specInsertStanding a (specSortStandings t)

/-- The final standings as the specification describes them. -/
def specFinalStandings (db : Db) (roomId : String) : List Standing :=
  specSortStandings ((db.participants.filter (fun p => p.roomId == roomId)).map
    (fun p => ⟨p.userId, userNameOf db.users p.userId, p.score,
       specNewRating (lookupKV db.ratings p.userId) p.score⟩))

/-- Room `"r"` with tied users 2 and 1 (score 5, user 2's row first in the
table) and user 3 with score 0 and a stored rating of 1000. -/
def exC2St : ServerState :=
  { db := { rooms := [⟨"r", "Room", 1, true, 4⟩],
            users := [(1, some "Alice"), (2, some "Bob"), (3, some "Carol")],
            questions := [],
            participants := [⟨"r", 2, 5⟩, ⟨"r", 1, 5⟩, ⟨"r", 3, 0⟩],
            claims := [], ratings := [(3, 1000)] },
    redis := ⟨[], [], [], [], [], []⟩,
    questionsCache := [], timers := [], roomSockets := [],
    userConnections := [], rateLimitMap := [] }

/-- Counterexample to claim C2: the code computes user 3's new rating as
`1000 + 0*10 = 1000` (it uses `storedRating || 1200`, not
`max(1200, storedRating)`, so a stored rating of 1000 is kept), and the
tied users 2 and 1 appear in table order `2, 1`, not in ascending userId
order `1, 2` as the claim demands; the spec-side computation produces a
different list. -/
theorem c2_counterexample :
    (handleQuizFinished exC2St "r").2
      = [.broadcast "r" (.quizFinished
          [⟨2, "Bob", 5, 1250⟩, ⟨1, "Alice", 5, 1250⟩, ⟨3, "Carol", 0, 1000⟩])]
    ∧ specFinalStandings exC2St.db "r"
      = [⟨1, "Alice", 5, 1250⟩, ⟨2, "Bob", 5, 1250⟩, ⟨3, "Carol", 0, 1200⟩]
    ∧ ([⟨2, "Bob", 5, 1250⟩, ⟨1, "Alice", 5, 1250⟩, ⟨3, "Carol", 0, 1000⟩] : List Standing)
      ≠ [⟨1, "Alice", 5, 1250⟩, ⟨2, "Bob", 5, 1250⟩, ⟨3, "Carol", 0, 1200⟩] := by
  refine ⟨by decide, by decide, by decide⟩

theorem c2_final_standings_witness :
    (handleQuizFinished exC2St "r").2
      = [.broadcast "r" (.quizFinished
          ((sortByScoreDesc (exC2St.db.participants.filter (fun p => p.roomId == "r"))).map
            (standingOf exC2St.db.ratings exC2St.db.users)))]
    ∧ (sortByScoreDesc (exC2St.db.participants.filter
        (fun p => p.roomId == "r"))).Pairwise (fun x y => y.score ≤ x.score) :=
  ⟨(c2_final_standings exC2St "r" (by decide)).1,
   (c2_final_standings exC2St "r" (by decide)).2.1⟩

/-! ### Claim C10: post-quiz cleanup -/

/-- If a room has no `currentQuestion` key, `handleStartQuiz` can fail for
other reasons but never with `409 Quiz already in progress`. -/
theorem startQuiz_no409_of_noCurrent (st : ServerState) (conn : Conn) (roomId : String)
    (skip : Nat) (asc : Bool) (now : Nat)
    (h : lookupKV st.redis.currentQuestion roomId = none) :
    Out.reply (.error 409 "Quiz already in progress")
      ∉ (handleStartQuiz st conn roomId skip asc now).2 := by
  intro hmem
  unfold handleStartQuiz at hmem
  repeat' split at hmem
  all_goals simp_all

/-- A room mid-quiz: question 3 current, user 7 has an answered key for
question 0, question 1 expired, a timer pending. -/
def exC10St : ServerState :=
  { db := { rooms := [⟨"r", "Room", 1, true, 4⟩],
            users := [(1, some "Alice")],
            questions := [],
            participants := [⟨"r", 1, 2⟩],
            claims := [⟨"r", 0, 7⟩], ratings := [] },
    redis := { currentQuestion := [("r", 3)],
               roomParticipants := [("r", [1, 7])],
               startTime := [("r", 42)],
               answered := [("r", 0, 7)],
               firstUser := [(("r", 0), 7)],
               expired := [("r", 1)] },
    questionsCache := [("r", [qA])],
    timers := [("r:3", ⟨9, 3, "r", .questionExpiry "r" 3⟩)],
    roomSockets := [("r", ["c1"])],
    userConnections := [], rateLimitMap := [] }

/-- Counterexample to claim C10: after `cleanupRoomData` the per-user
Redis key `room:r:q:0:answered:7` is still present — the deletion list
contains `currentQuestion`, `participants`, `startTime`, `firstUser` and
`expired` keys only — so not every Redis key of the room is removed. -/
theorem c10_counterexample :
    (cleanupRoomData exC10St "r").redis.answered = [("r", 0, 7)]
    ∧ lookupKV (cleanupRoomData exC10St "r").redis.currentQuestion "r" = none
    ∧ lookupKV (cleanupRoomData exC10St "r").questionsCache "r" = none := by
  refine ⟨by decide, by decide, by decide⟩

/-- Claim C10 (amended): `cleanupRoomData` removes the questions-cache
entry, every timer keyed with prefix `roomId ++ ":"`, and the Redis keys
`currentQuestion`, `participants`, `startTime` and the per-question
`firstUser` / `expired` flags for indexes 0..9 — but leaves the per-user
`answered` keys behind (they only lapse by TTL); afterwards a `startQuiz`
on the same room is never rejected with `409 Quiz already in progress`. -/
theorem c10_cleanup_resets_room (st : ServerState) (roomId : String) (conn : Conn)
    (skip now : Nat) (asc : Bool) :
    lookupKV (cleanupRoomData st roomId).questionsCache roomId = none
    ∧ lookupKV (cleanupRoomData st roomId).redis.currentQuestion roomId = none
    ∧ lookupKV (cleanupRoomData st roomId).redis.roomParticipants roomId = none
    ∧ lookupKV (cleanupRoomData st roomId).redis.startTime roomId = none
    ∧ (∀ i < QUESTIONS_PER_QUIZ,
        lookupKV (cleanupRoomData st roomId).redis.firstUser (roomId, i) = none
        ∧ (roomId, i) ∉ (cleanupRoomData st roomId).redis.expired)
    ∧ (∀ k, strStartsWith k (roomId ++ ":") →
        lookupKV (cleanupRoomData st roomId).timers k = none)
    ∧ (cleanupRoomData st roomId).redis.answered = st.redis.answered
    ∧ Out.reply (.error 409 "Quiz already in progress")
        ∉ (handleStartQuiz (cleanupRoomData st roomId) conn roomId skip asc now).2 := by
  refine ⟨lookupKV_removeKV_self _ _, lookupKV_removeKV_self _ _,
    lookupKV_removeKV_self _ _, lookupKV_removeKV_self _ _, ?_, ?_, rfl, ?_⟩
  · intro i hi
    have hkey : (roomId, i) ∈ roomQuestionKeys roomId := by
      simp only [roomQuestionKeys, List.mem_map, List.mem_range]
      exact ⟨i, hi, rfl⟩
    constructor
    · apply lookupKV_filter_none
      intro v
      simp [hkey]
    · intro hmem
      have := List.of_mem_filter hmem
      simp [hkey] at this
  · intro k hk
    apply lookupKV_filter_none
    intro v
    simp [hk]
  · exact startQuiz_no409_of_noCurrent _ conn roomId skip asc now
      (lookupKV_removeKV_self _ _)

theorem c10_cleanup_resets_room_witness :
    lookupKV (cleanupRoomData exC10St "r").redis.currentQuestion "r" = none
    ∧ lookupKV (cleanupRoomData exC10St "r").timers "r:3" = none
    ∧ lookupKV (cleanupRoomData exC10St "r").redis.firstUser ("r", 0) = none
    ∧ Out.reply (.error 409 "Quiz already in progress")
        ∉ (handleStartQuiz (cleanupRoomData exC10St "r") ⟨1, "c1", none⟩ "r" 0 true 99).2 :=
  ⟨(c10_cleanup_resets_room exC10St "r" ⟨1, "c1", none⟩ 0 99 true).2.1,
   (c10_cleanup_resets_room exC10St "r" ⟨1, "c1", none⟩ 0 99 true).2.2.2.2.2.1 "r:3"
     (by decide),
   ((c10_cleanup_resets_room exC10St "r" ⟨1, "c1", none⟩ 0 99 true).2.2.2.2.1 0
     (by decide)).1,
   (c10_cleanup_resets_room exC10St "r" ⟨1, "c1", none⟩ 0 99 true).2.2.2.2.2.2.2⟩

end MCQBattle
